import Mathlib

/-!
Verification of the FSX-challenge core: the `Yards`/`Meters` fixed-point
quantity model (`src/units.rs`), the gap-constrained placement sampler and
the challenge builder (`src/main.rs`).

Modelling conventions.
* Rust `usize` values are embedded as `ℕ`.  The only operation whose
  wrap/saturation behaviour a claim touches is the `f64 → usize` `as` cast,
  which saturates; it is modelled explicitly in `Yards.from_float`.
* `f64` arithmetic is embedded as exact rational (`ℚ`) arithmetic, the
  abstraction the specification itself uses ("multiply/divide ... by this
  constant as real numbers and truncate").  A truncation `e as usize` of a
  non-negative quantity is floor, hence the `ℕ`-division forms below.
* An `f64` value that may be NaN is embedded as `Option ℚ`, `none` = NaN.
* The thread-local RNG is embedded as an oracle stream `s : ℕ → ℕ` of raw
  draws; draw `r` is mapped into the half-open range `[lo, hi)` as
  `lo + r % (hi - lo)`, which reaches every element of the range.  The
  distributional (unbiasedness) part of `UniformInt` is outside scope: every
  claim quantifies over all outcomes.
* The rejection loop of `RandYardsIter::next` need not terminate, so it is
  embedded with explicit fuel, returning `none` when fuel runs out.
* Rust's `DefaultHasher` is SipHash-1-3 with both keys 0; hashing a
  `Yards(usize)` feeds the 8 little-endian bytes of the milli-yard integer,
  so each hashed value contributes exactly one 64-bit message word.
-/

namespace FSX

set_option maxRecDepth 10000 in
/-- The single conversion constant of `src/units.rs`: `YARDS_PER_METER = 1.09361`,
as an exact rational. -/
def YARDS_PER_METER : ℚ := 109361 / 100000

/-- `Meters(usize)`: a non-negative length in milli-meters (`src/units.rs`). -/
structure Meters where
  milli : ℕ
deriving DecidableEq, Repr

/-- `Yards(usize)`: a non-negative length in milli-yards (`src/units.rs`). -/
structure Yards where
  milli : ℕ
deriving DecidableEq, Repr

/-- `Yards::new(val) = Yards(val * 1000)`. -/
def Yards.new (val : ℕ) : Yards := ⟨val * 1000⟩

/-- `Yards::from_float(x) = Yards((x * 1000.0) as usize)` for a non-NaN `x`.
The Rust `as usize` cast truncates toward zero and saturates: negative values
become `0`, values above `usize::MAX = 2^64 - 1` become `usize::MAX`. -/
def Yards.from_float (x : ℚ) : Yards := ⟨min (Int.toNat ⌊x * 1000⌋) (2 ^ 64 - 1)⟩

/-- `Yards::from_float` at the `f64` interface, where the argument may also be
NaN (`none`); Rust's float-to-integer `as` cast sends NaN to `0`. -/
def Yards.from_float_f64 : Option ℚ → Yards
  | none => ⟨0⟩
  | some x => Yards.from_float x

/-- `Yards::as_float(self) = self.0 as f64 / 1000.0`. -/
def Yards.as_float (y : Yards) : ℚ := (y.milli : ℚ) / 1000

/-- `Yards::to_meters(self) = Meters((self.0 as f64 / YARDS_PER_METER) as usize)`:
truncated division of the milli-yard integer by `109361/100000`, i.e.
`⌊milli * 100000 / 109361⌋` — written with `ℕ`-division, which is exactly
that floor. -/
def Yards.to_meters (y : Yards) : Meters := ⟨y.milli * 100000 / 109361⟩

/-- `Yards::abs_diff` — absolute difference of the milli-yard integers. -/
def Yards.abs_diff (a b : Yards) : Yards := ⟨Nat.dist a.milli b.milli⟩

/-- `Meters::to_yards(self) = Yards((self.0 as f64 * YARDS_PER_METER) as usize)`:
truncated multiplication of the milli-meter integer by `109361/100000`. -/
def Meters.to_yards (m : Meters) : Yards := ⟨m.milli * 109361 / 100000⟩

/-- `Meters::as_float(self) = self.0 as f64 / 1000.0`. -/
def Meters.as_float (m : Meters) : ℚ := (m.milli : ℚ) / 1000

/-- `Meters::from_float(x) = Meters((x * 1000.0) as usize)` (saturating cast). -/
def Meters.from_float (x : ℚ) : Meters := ⟨min (Int.toNat ⌊x * 1000⌋) (2 ^ 64 - 1)⟩

/-- `rng.gen_range(lo..hi)` (via `UniformYards`/`UniformInt<usize>`): the raw
oracle draw `r` is folded into the half-open range as `lo + r % (hi - lo)`.
Every element of `[lo, hi)` is reachable; for `lo < hi` the result lies in
`[lo, hi)`.  (Rust's `UniformInt::new` panics for `lo ≥ hi`; claims about the
sampler carry `lo < hi` as a precondition.) -/
def genRange (lo hi r : ℕ) : ℕ := lo + r % (hi - lo)

/-- One call of `RandYardsIter::next` (`src/main.rs`): starting at draw index
`k` with previously emitted value `last`, repeatedly draw
`y = gen_range(lo..hi)`; if `last = Some(ly)` and `ly.abs_diff(y) < min_gap`
the draw is rejected and the loop continues, otherwise `y` is emitted.  The
potentially endless loop is bounded by `fuel`; returns the emitted value and
the next draw index. -/
def nextYards (lo hi gap : ℕ) (s : ℕ → ℕ) : Option ℕ → ℕ → ℕ → Option (ℕ × ℕ)
  | _, _, 0 => none
  | last, k, fuel + 1 =>
    let y := genRange lo hi (s k)
    match last with
    | some ly =>
      if (Yards.abs_diff ⟨ly⟩ ⟨y⟩).milli < gap then
        nextYards lo hi gap s (some ly) (k + 1) fuel
      else
        some (y, k + 1)
    | none => some (y, k + 1)

/-- `yards_within(bounds, min_gap).take(n)`: the first `n` emitted milli-yard
values, threading `last` and the draw index through `nextYards`; `none` when
some rejection loop exhausts its fuel. -/
def takeYards (lo hi gap : ℕ) (s : ℕ → ℕ) : Option ℕ → ℕ → ℕ → ℕ → Option (List ℕ)
  | _, _, _, 0 => some []
  | last, k, fuel, n + 1 =>
    match nextYards lo hi gap s last k fuel with
    | none => none
    | some (y, k2) => Option.map (fun ys => y :: ys) (takeYards lo hi gap s (some y) k2 fuel n)

/-- `const NUM_STATIONS: usize = 20`. -/
def NUM_STATIONS : ℕ := 20

/-- The `Station` record of `src/main.rs`. -/
structure Station where
  array_index : ℕ
  desc : String
  station_num : ℕ
  skill_type : ℕ
  num_shots_am : ℕ
  num_shots_pro : ℕ
  num_shots_to_use : ℕ
  trgt_dist_women : Meters
  trgt_dist_am : Meters
  trgt_dist_pro : Meters
  inner_ring_diam_am : Meters
  mid_ring_diam_am : Meters
  outer_ring_diam_am : Meters
  inner_ring_diam_pro : Meters
  mid_ring_diam_pro : Meters
  outer_ring_diam_pro : Meters
  inner_score : ℕ
  mid_score : ℕ
  outer_score : ℕ
  obstacle : ℕ
  obstacle_dist : Meters
deriving DecidableEq, Repr

/-- The `Station` literal of the `map` closure in `new_random_challenge`,
for index `idx` and sampled milli-yardage `yds`. -/
def mkStation (idx yds inner_ring mid_ring outer_ring isc msc osc : ℕ) : Station where
  array_index := idx
  desc := "1"
  station_num := idx + 1
  skill_type := 0
  num_shots_am := 1
  num_shots_pro := 1
  num_shots_to_use := 1
  trgt_dist_women := (Yards.mk yds).to_meters
  trgt_dist_am := (Yards.mk yds).to_meters
  trgt_dist_pro := (Yards.mk yds).to_meters
  inner_ring_diam_am := (Yards.mk inner_ring).to_meters
  mid_ring_diam_am := (Yards.mk mid_ring).to_meters
  outer_ring_diam_am := (Yards.mk outer_ring).to_meters
  inner_ring_diam_pro := (Yards.mk inner_ring).to_meters
  mid_ring_diam_pro := (Yards.mk mid_ring).to_meters
  outer_ring_diam_pro := (Yards.mk outer_ring).to_meters
  inner_score := isc
  mid_score := msc
  outer_score := osc
  obstacle := 0
  obstacle_dist := (Yards.new 0).to_meters

/-- `.enumerate().map(|(idx, yds)| Station { ... })` over the sampled values. -/
def buildStations (ys : List ℕ) (inner_ring mid_ring outer_ring isc msc osc : ℕ) :
    List Station :=
  ys.enum.map fun p => mkStation p.1 p.2 inner_ring mid_ring outer_ring isc msc osc

/-- The four 64-bit state words of a SipHash hasher. -/
structure SipState where
  v0 : ℕ
  v1 : ℕ
  v2 : ℕ
  v3 : ℕ
deriving DecidableEq, Repr

/-- 64-bit modulus for the SipHash state words. -/
def M64 : ℕ := 2 ^ 64

/-- Addition mod `2^64`. -/
def add64 (a b : ℕ) : ℕ := (a + b) % M64

/-- Left rotation of a 64-bit word by `r` bits. -/
def rotl64 (a r : ℕ) : ℕ := ((a <<< r) % M64) ||| (a >>> (64 - r))

/-- One SipHash round (`compress!` in Rust's `core::hash::sip`). -/
def sipRound (st : SipState) : SipState :=
  let v0 := add64 st.v0 st.v1
  let v1 := rotl64 st.v1 13
  let v1 := v1 ^^^ v0
  let v0 := rotl64 v0 32
  let v2 := add64 st.v2 st.v3
  let v3 := rotl64 st.v3 16
  let v3 := v3 ^^^ v2
  let v0 := add64 v0 v3
  let v3 := rotl64 v3 21
  let v3 := v3 ^^^ v0
  let v2 := add64 v2 v1
  let v1 := rotl64 v1 17
  let v1 := v1 ^^^ v2
  let v2 := rotl64 v2 32
  ⟨v0, v1, v2, v3⟩

/-- Absorb one 64-bit message word with the single compression round of
SipHash-1-3: `v3 ^= m; sipround; v0 ^= m`. -/
def sipCompress (st : SipState) (m : ℕ) : SipState :=
  let st1 := sipRound { st with v3 := st.v3 ^^^ m }
  { st1 with v0 := st1.v0 ^^^ m }

/-- Initial SipHash state of `DefaultHasher::new()`: keys `k0 = k1 = 0`, so
the state words are the bare SipHash constants. -/
def sipInitState : SipState :=
  ⟨0x736f6d6570736575, 0x646f72616e646f6d, 0x6c7967656e657261, 0x7465646279746573⟩

/-- `DefaultHasher` (SipHash-1-3, keys 0) over a message that is the
concatenation of the 8 little-endian bytes of each word in `ws`: absorb each
word, then the final block `(len % 256) << 56` (the tail is empty because all
writes are 8-byte aligned), then `v2 ^= 0xff`, three finalization rounds, and
`v0 ^ v1 ^ v2 ^ v3`. -/
def sipHash13 (ws : List ℕ) : ℕ :=
  let st := ws.foldl sipCompress sipInitState
  let b := ((8 * ws.length) % 256) <<< 56
  let st := sipCompress st b
  let st := { st with v2 := st.v2 ^^^ 0xff }
  let st := sipRound (sipRound (sipRound st))
  st.v0 ^^^ st.v1 ^^^ st.v2 ^^^ st.v3

/-- `hasher.finish() as u32`: the 64-bit SipHash digest of the word sequence,
truncated to its low 32 bits. -/
def uidOfWords (ws : List ℕ) : ℕ := sipHash13 ws % 2 ^ 32

/-- The milli-yard integer actually fed to the hasher for a sampled
milli-yardage `y`: the code hashes `station.trgt_dist_am.to_yards()`, i.e.
`y` converted to meters and back to yards (a lossy fixed-point roundtrip). -/
def hashedYard (y : ℕ) : ℕ := ((Yards.mk y).to_meters.to_yards).milli

/-- The `uid` block of `new_random_challenge`: hash
`station.trgt_dist_am.to_yards()` for each station in order and truncate the
digest to 32 bits. -/
def challengeUid (stations : List Station) : ℕ :=
  uidOfWords (stations.map fun st => st.trgt_dist_am.to_yards.milli)

/-- Rust's `format!("{v:.0}")` for the `f64` value `milli / 1000.0`: exact
decimal formatting with zero fractional digits rounds to the nearest integer,
ties to even. -/
def fmtDot0 (milli : ℕ) : ℕ :=
  let q := milli / 1000
  let r := milli % 1000
  if 500 < r then q + 1 else if r < 500 then q else if q % 2 = 0 then q else q + 1

/-- Modelled from the spec: the claim's "half-up rounding" of the whole-yard
real form `milli / 1000`, i.e. `round(x) = ⌊x + 1/2⌋`.  Used only to compare
against the formatter the code actually uses (`fmtDot0`). -/
def specHalfUpRound (milli : ℕ) : ℕ := (milli + 500) / 1000

/-- The lowercase hexadecimal digits. -/
def hexChars : List Char := "0123456789abcdef".data

/-- Rust's `format!("{uid:08x}")` for `uid < 2^32`: exactly eight lowercase
hexadecimal digits, zero-padded. -/
def hex8 (n : ℕ) : String :=
  ⟨[Nat.digitChar (n / 16 ^ 7 % 16), Nat.digitChar (n / 16 ^ 6 % 16),
    Nat.digitChar (n / 16 ^ 5 % 16), Nat.digitChar (n / 16 ^ 4 % 16),
    Nat.digitChar (n / 16 ^ 3 % 16), Nat.digitChar (n / 16 ^ 2 % 16),
    Nat.digitChar (n / 16 % 16), Nat.digitChar (n % 16)]⟩

/-- `format!(r"{min:.0} - {max:.0} {uid:08x}")` where `min`/`max` are the
`as_float` views of the bounds `lo`/`hi` (in milli-yards). -/
def mkName (lo hi uid : ℕ) : String :=
  Nat.repr (fmtDot0 lo) ++ " - " ++ Nat.repr (fmtDot0 hi) ++ " " ++ hex8 uid

/-- The `FSXChallenge` record of `src/main.rs`. -/
structure FSXChallenge where
  name : String
  num_stations : ℕ
  stations : List Station
deriving DecidableEq, Repr

/-- `new_random_challenge(dist, min_gap, rings…, scores…)`: draw
`NUM_STATIONS` milli-yardages from the sampler (oracle stream `s`, rejection
fuel `fuel`), build the stations, compute the uid and the name.  `none` when
the bounded rejection loop runs out of fuel. -/
def new_random_challenge (lo hi gap inner_ring mid_ring outer_ring isc msc osc : ℕ)
    (s : ℕ → ℕ) (fuel : ℕ) : Option FSXChallenge :=
  match takeYards lo hi gap s none 0 fuel NUM_STATIONS with
  | none => none
  | some ys =>
    let stations := buildStations ys inner_ring mid_ring outer_ring isc msc osc
    some { name := mkName lo hi (challengeUid stations)
           num_stations := NUM_STATIONS
           stations := stations }

/-- `genRange` lands in `[lo, hi)` whenever the range is non-empty. -/
theorem genRange_bounds (lo hi r : ℕ) (h : lo < hi) :
    lo ≤ genRange lo hi r ∧ genRange lo hi r < hi := by
  unfold genRange
  have hmod : r % (hi - lo) < hi - lo := Nat.mod_lt _ (by omega)
  omega

/-- An emitted value of `RandYardsIter::next` is some `genRange` draw, and it
is at distance at least `min_gap` from the previously emitted value. -/
theorem nextYards_some (lo hi gap : ℕ) (s : ℕ → ℕ) :
    ∀ (fuel : ℕ) (last : Option ℕ) (k y k2 : ℕ),
      nextYards lo hi gap s last k fuel = some (y, k2) →
      (∃ r, y = genRange lo hi r) ∧ ∀ ly, last = some ly → gap ≤ Nat.dist ly y := by
  intro fuel
  induction fuel with
  | zero => intro last k y k2 h; simp [nextYards] at h
  | succ fuel ih =>
    intro last k y k2 h
    cases last with
    | none =>
      simp only [nextYards] at h
      obtain ⟨hy, -⟩ := Prod.mk.injEq .. ▸ Option.some.injEq .. ▸ h
      exact ⟨⟨s k, hy.symm⟩, fun ly hly => by cases hly⟩
    | some ly =>
      simp only [nextYards] at h
      by_cases hcond : (Yards.abs_diff ⟨ly⟩ ⟨genRange lo hi (s k)⟩).milli < gap
      · rw [if_pos hcond] at h
        obtain ⟨hr, hgap⟩ := ih (some ly) (k + 1) y k2 h
        exact ⟨hr, hgap⟩
      · rw [if_neg hcond] at h
        obtain ⟨hy, -⟩ := Prod.mk.injEq .. ▸ Option.some.injEq .. ▸ h
        refine ⟨⟨s k, hy.symm⟩, fun ly' hly' => ?_⟩
        cases hly'
        subst hy
        simpa [Yards.abs_diff, Nat.not_lt] using hcond

/-- The sampler emits exactly the requested number of values on success. -/
theorem takeYards_length (lo hi gap : ℕ) (s : ℕ → ℕ) (fuel : ℕ) :
    ∀ (n : ℕ) (last : Option ℕ) (k : ℕ) (ys : List ℕ),
      takeYards lo hi gap s last k fuel n = some ys → ys.length = n := by
  intro n
  induction n with
  | zero =>
    intro last k ys h
    simp only [takeYards, Option.some.injEq] at h
    simp [← h]
  | succ n ih =>
    intro last k ys h
    simp only [takeYards] at h
    cases hnx : nextYards lo hi gap s last k fuel with
    | none => rw [hnx] at h; cases h
    | some p =>
      obtain ⟨y, k2⟩ := p
      rw [hnx] at h
      dsimp only at h
      cases hr : takeYards lo hi gap s (some y) k2 fuel n with
      | none => rw [hr] at h; cases h
      | some zs =>
        rw [hr] at h
        obtain rfl : y :: zs = ys := Option.some.injEq .. ▸ h
        simp [ih (some y) k2 zs hr]

/-- Every emitted value is a `genRange` draw. -/
theorem takeYards_mem (lo hi gap : ℕ) (s : ℕ → ℕ) (fuel : ℕ) :
    ∀ (n : ℕ) (last : Option ℕ) (k : ℕ) (ys : List ℕ),
      takeYards lo hi gap s last k fuel n = some ys →
      ∀ y ∈ ys, ∃ r, y = genRange lo hi r := by
  intro n
  induction n with
  | zero =>
    intro last k ys h
    simp only [takeYards, Option.some.injEq] at h
    simp [← h]
  | succ n ih =>
    intro last k ys h
    simp only [takeYards] at h
    cases hnx : nextYards lo hi gap s last k fuel with
    | none => rw [hnx] at h; cases h
    | some p =>
      obtain ⟨y, k2⟩ := p
      rw [hnx] at h
      dsimp only at h
      cases hr : takeYards lo hi gap s (some y) k2 fuel n with
      | none => rw [hr] at h; cases h
      | some zs =>
        rw [hr] at h
        obtain rfl : y :: zs = ys := Option.some.injEq .. ▸ h
        intro z hz
        rcases List.mem_cons.mp hz with rfl | hz'
        · exact (nextYards_some lo hi gap s fuel last k z k2 hnx).1
        · exact ih (some y) k2 zs hr z hz'

/-- Consecutive emitted values are at least `min_gap` apart, and when a
previously emitted value is pending, it is at least `min_gap` from the first
newly emitted value. -/
theorem takeYards_chain (lo hi gap : ℕ) (s : ℕ → ℕ) (fuel : ℕ) :
    ∀ (n : ℕ) (last : Option ℕ) (k : ℕ) (ys : List ℕ),
      takeYards lo hi gap s last k fuel n = some ys →
      List.Chain' (fun a b => gap ≤ Nat.dist a b) ys
        ∧ ∀ ly z, last = some ly → ys.head? = some z → gap ≤ Nat.dist ly z := by
  intro n
  induction n with
  | zero =>
    intro last k ys h
    simp only [takeYards, Option.some.injEq] at h
    subst h
    exact ⟨List.chain'_nil, fun ly z _ hz => by cases hz⟩
  | succ n ih =>
    intro last k ys h
    simp only [takeYards] at h
    cases hnx : nextYards lo hi gap s last k fuel with
    | none => rw [hnx] at h; cases h
    | some p =>
      obtain ⟨y, k2⟩ := p
      rw [hnx] at h
      dsimp only at h
      cases hr : takeYards lo hi gap s (some y) k2 fuel n with
      | none => rw [hr] at h; cases h
      | some zs =>
        rw [hr] at h
        obtain rfl : y :: zs = ys := Option.some.injEq .. ▸ h
        obtain ⟨hchain, hhead⟩ := ih (some y) k2 zs hr
        have hgap := (nextYards_some lo hi gap s fuel last k y k2 hnx).2
        constructor
        · cases zs with
          | nil => simp
          | cons z zs' =>
            rw [List.chain'_cons]
            exact ⟨hhead y z rfl rfl, hchain⟩
        · intro ly z hlast hz
          obtain rfl : y = z := Option.some.injEq .. ▸ hz
          exact hgap ly hlast

/-- The station list built from `ys` carries `0 ... |ys| - 1` as
`array_index` values, in order. -/
theorem buildStations_array_index (ys : List ℕ) (a b c d e f : ℕ) :
    (buildStations ys a b c d e f).map Station.array_index = List.range ys.length := by
  unfold buildStations
  rw [List.map_map]
  exact List.enum_map_fst ys

/-- The station list built from `ys` carries `1 ... |ys|` as `station_num`
values, in order. -/
theorem buildStations_station_num (ys : List ℕ) (a b c d e f : ℕ) :
    (buildStations ys a b c d e f).map Station.station_num
      = (List.range ys.length).map fun i => i + 1 := by
  unfold buildStations
  rw [List.map_map]
  show List.map ((fun i => i + 1) ∘ Prod.fst) ys.enum = _
  rw [← List.map_map, List.enum_map_fst]

/-- As many stations as sampled values. -/
theorem buildStations_length (ys : List ℕ) (a b c d e f : ℕ) :
    (buildStations ys a b c d e f).length = ys.length := by
  simp [buildStations, List.enum_length]

/-- The uid block hashes exactly the meters-and-back roundtrip of each
sampled milli-yardage, in emission order. -/
theorem challengeUid_buildStations (ys : List ℕ) (a b c d e f : ℕ) :
    challengeUid (buildStations ys a b c d e f) = uidOfWords (ys.map hashedYard) := by
  unfold challengeUid buildStations
  rw [List.map_map]
  show uidOfWords (List.map (hashedYard ∘ Prod.snd) ys.enum) = _
  rw [← List.map_map, List.enum_map_snd]

/-- Decimal digit characters produced by `Nat.digitChar` below `10`. -/
theorem digitChar_isDigit : ∀ m : Fin 10, (Nat.digitChar m.val).isDigit = true := by
  decide

/-- Hexadecimal digit characters produced by `Nat.digitChar` below `16`. -/
theorem digitChar_mem_hexChars : ∀ m : Fin 16, Nat.digitChar m.val ∈ hexChars := by
  decide

/-- Every character placed by `Nat.toDigitsCore` in base 10 is a decimal
digit, provided the accumulator only holds decimal digits. -/
theorem toDigitsCore_isDigit :
    ∀ (fuel n : ℕ) (ds : List Char), (∀ c ∈ ds, c.isDigit = true) →
      ∀ c ∈ Nat.toDigitsCore 10 fuel n ds, c.isDigit = true := by
  intro fuel
  induction fuel with
  | zero => intro n ds hds c hc; exact hds c hc
  | succ fuel ih =>
    intro n ds hds c hc
    simp only [Nat.toDigitsCore] at hc
    have hd : (Nat.digitChar (n % 10)).isDigit = true :=
      digitChar_isDigit ⟨n % 10, Nat.mod_lt _ (by norm_num)⟩
    have hcons : ∀ c' ∈ Nat.digitChar (n % 10) :: ds, c'.isDigit = true := by
      intro c' hc'
      rcases List.mem_cons.mp hc' with rfl | hc''
      · exact hd
      · exact hds c' hc''
    by_cases h10 : n / 10 = 0
    · rw [if_pos h10] at hc
      exact hcons c hc
    · rw [if_neg h10] at hc
      exact ih (n / 10) (Nat.digitChar (n % 10) :: ds) hcons c hc

/-- Every character of `Nat.repr n` is a decimal digit. -/
theorem reprChar_isDigit (n : ℕ) : ∀ ch ∈ (Nat.repr n).data, ch.isDigit = true := by
  intro ch hch
  exact toDigitsCore_isDigit (n + 1) n [] (by intro c hc; cases hc) ch hch

/-- Every character of `hex8 n` is a lowercase hexadecimal digit. -/
theorem hex8_mem_hexChars (n : ℕ) : ∀ ch ∈ (hex8 n).data, ch ∈ hexChars := by
  intro ch hch
  simp only [hex8, List.mem_cons, List.not_mem_nil, or_false] at hch
  rcases hch with rfl | rfl | rfl | rfl | rfl | rfl | rfl | rfl <;>
    exact digitChar_mem_hexChars ⟨_, Nat.mod_lt _ (by norm_num)⟩

/-- C5: for every non-negative integer `Y`,
`Yards::new(Y).to_meters().as_real()` equals `truncate(Y * 1000 / 1.09361) / 1000`
(truncation of a non-negative quantity is `Nat.floor`). -/
theorem C5_to_meters_truncation (Y : ℕ) :
    ((Yards.new Y).to_meters).as_float
      = ((⌊((Y : ℚ) * 1000) / YARDS_PER_METER⌋₊ : ℕ) : ℚ) / 1000 := by
  have h1 : ((Y : ℚ) * 1000) / YARDS_PER_METER
      = ((Y * 1000 * 100000 : ℕ) : ℚ) / ((109361 : ℕ) : ℚ) := by
    unfold YARDS_PER_METER
    push_cast
    ring
  rw [h1, Nat.floor_div_nat (((Y * 1000 * 100000 : ℕ) : ℚ)) 109361, Nat.floor_natCast]
  simp [Yards.new, Yards.to_meters, Meters.as_float, Nat.mul_assoc]

/-- C6: `Yards::from_real(Yards::new(N).as_real()) = Yards::new(N)` for
`N ≤ 2^30` (`from_real` is the spec's name for `Yards::from_float`). -/
theorem C6_new_as_float_roundtrip (N : ℕ) (h : N ≤ 2 ^ 30) :
    Yards.from_float ((Yards.new N).as_float) = Yards.new N := by
  have hfl : (Yards.new N).as_float * 1000 = ((N * 1000 : ℕ) : ℚ) := by
    simp only [Yards.new, Yards.as_float]
    push_cast
    ring
  have hfloor : ⌊(Yards.new N).as_float * 1000⌋ = (N * 1000 : ℕ) := by
    rw [hfl, Int.floor_natCast]
  unfold Yards.from_float
  rw [hfloor, Int.toNat_natCast]
  simp only [Yards.new, Yards.mk.injEq]
  omega

/-- Witness for C6 at `N = 3`. -/
theorem C6_new_as_float_roundtrip_witness :
    Yards.from_float ((Yards.new 3).as_float) = Yards.new 3 :=
  C6_new_as_float_roundtrip 3 (by norm_num)

/-- C10: totality of `Yards::from_float` at the public interface: NaN casts
to the zero value, every finite negative input casts to the zero value, and an
input whose scaled value exceeds `usize::MAX = 2^64 - 1` saturates to it. -/
theorem C10_from_float_saturates :
    Yards.from_float_f64 none = ⟨0⟩
      ∧ (∀ x : ℚ, x < 0 → Yards.from_float_f64 (some x) = ⟨0⟩)
      ∧ (∀ x : ℚ, ((2 : ℚ) ^ 64 - 1) < x * 1000 →
          Yards.from_float_f64 (some x) = ⟨2 ^ 64 - 1⟩) := by
  refine ⟨rfl, ?_, ?_⟩
  · intro x hx
    have hneg : x * 1000 < 0 := by nlinarith
    have hfl : ⌊x * 1000⌋ ≤ 0 := by
      have := Int.floor_le (x * 1000)
      have : ((⌊x * 1000⌋ : ℚ)) < 0 := lt_of_le_of_lt this hneg
      exact_mod_cast le_of_lt this
    simp [Yards.from_float_f64, Yards.from_float, Int.toNat_eq_zero.mpr hfl]
  · intro x hx
    have hle : ((2 ^ 64 - 1 : ℤ) : ℚ) ≤ x * 1000 := by push_cast; linarith
    have hfl : (2 ^ 64 - 1 : ℤ) ≤ ⌊x * 1000⌋ := Int.le_floor.mpr hle
    have htn : 2 ^ 64 - 1 ≤ Int.toNat ⌊x * 1000⌋ := by omega
    simp only [Yards.from_float_f64, Yards.from_float, Yards.mk.injEq]
    omega

/-- Witness for C10 at `x = -1` and `x = 2^70`. -/
theorem C10_from_float_saturates_witness :
    Yards.from_float_f64 (some (-1)) = ⟨0⟩
      ∧ Yards.from_float_f64 (some (2 ^ 70)) = ⟨2 ^ 64 - 1⟩ :=
  ⟨C10_from_float_saturates.2.1 (-1) (by norm_num),
   C10_from_float_saturates.2.2 (2 ^ 70) (by norm_num)⟩

/-- C2: for every sequence emitted by the sampler, consecutive emitted values
are at least `min_gap` apart on the milli-yard integers (the claim's
`i ∈ [1, N)` index is `i + 1` here), the constraint binds only consecutive
emitted values, and the first emitted value is accepted unconditionally (with
no `last`, `next` emits the very first draw). -/
theorem C2_adjacent_gap (lo hi gap : ℕ) (s : ℕ → ℕ) (fuel n : ℕ) (ys : List ℕ)
    (h : takeYards lo hi gap s none 0 fuel n = some ys) :
    (∀ (i : ℕ) (h2 : i + 1 < ys.length),
        gap ≤ (Yards.abs_diff ⟨ys.get ⟨i, by omega⟩⟩ ⟨ys.get ⟨i + 1, h2⟩⟩).milli)
      ∧ ∀ (k f : ℕ), nextYards lo hi gap s none k (f + 1)
          = some (genRange lo hi (s k), k + 1) := by
  constructor
  · intro i h2
    have hchain := (takeYards_chain lo hi gap s fuel n none 0 ys h).1
    have hstep := List.chain'_iff_get.mp hchain i (by omega)
    simpa [Yards.abs_diff] using hstep
  · intro k f
    rfl

/-- C2 witness: a concrete 3-element run with `min_gap = 10000`: the first
two emitted values are `20000` apart. -/
theorem C2_adjacent_gap_witness :
    (10000 : ℕ) ≤ (Yards.abs_diff ⟨([0, 20000, 40000] : List ℕ).get ⟨0, by norm_num⟩⟩
        ⟨([0, 20000, 40000] : List ℕ).get ⟨1, by norm_num⟩⟩).milli :=
  (C2_adjacent_gap 0 100000 10000 (fun k => 20000 * k) 25 3 [0, 20000, 40000]
      (by decide)).1 0 (by norm_num)

/-- C3: with a non-empty half-open range `[lo, hi)`, every value the sampler
emits satisfies `lo ≤ y < hi` on the milli-yard integers. -/
theorem C3_sampled_in_range (lo hi gap : ℕ) (s : ℕ → ℕ) (fuel n : ℕ) (ys : List ℕ)
    (hlo : lo < hi) (h : takeYards lo hi gap s none 0 fuel n = some ys) :
    ∀ y ∈ ys, lo ≤ y ∧ y < hi := by
  intro y hy
  obtain ⟨r, rfl⟩ := takeYards_mem lo hi gap s fuel n none 0 ys h y hy
  exact genRange_bounds lo hi r hlo

/-- C3 witness: the value `20000` of a concrete run lies in `[0, 100000)`. -/
theorem C3_sampled_in_range_witness : (0 : ℕ) ≤ 20000 ∧ (20000 : ℕ) < 100000 :=
  C3_sampled_in_range 0 100000 10000 (fun k => 20000 * k) 25 3 [0, 20000, 40000]
    (by norm_num) (by decide) 20000 (by decide)

/-- C7: every challenge built by `new_random_challenge` has `num_stations = 20`,
exactly `20 = NUM_STATIONS` stations, `array_index` values `0 ... 19` in order
and `station_num` values `1 ... 20` in order. -/
theorem C7_station_count_and_indexing (lo hi gap ir mr osr isc msc osc : ℕ)
    (s : ℕ → ℕ) (fuel : ℕ) (ys : List ℕ)
    (h : takeYards lo hi gap s none 0 fuel NUM_STATIONS = some ys) :
    (new_random_challenge lo hi gap ir mr osr isc msc osc s fuel).map
        (fun c => (c.num_stations, c.stations.length, c.stations.map Station.array_index,
          c.stations.map Station.station_num))
      = some (NUM_STATIONS, NUM_STATIONS, List.range NUM_STATIONS,
          (List.range NUM_STATIONS).map fun i => i + 1) := by
  have hlen := takeYards_length lo hi gap s fuel NUM_STATIONS none 0 ys h
  unfold new_random_challenge
  rw [h]
  show some (NUM_STATIONS, (buildStations ys ir mr osr isc msc osc).length,
      (buildStations ys ir mr osr isc msc osc).map Station.array_index,
      (buildStations ys ir mr osr isc msc osc).map Station.station_num) = _
  rw [buildStations_length, buildStations_array_index, buildStations_station_num, hlen]

/-- C7 witness: a concrete challenge with bounds `[0, 20000)` and gap `0`. -/
theorem C7_station_count_and_indexing_witness :
    (new_random_challenge 0 20000 0 8000 16000 24000 5 3 1 (fun k => 1000 * k) 25).map
        (fun c => (c.num_stations, c.stations.length, c.stations.map Station.array_index,
          c.stations.map Station.station_num))
      = some (NUM_STATIONS, NUM_STATIONS, List.range NUM_STATIONS,
          (List.range NUM_STATIONS).map fun i => i + 1) :=
  C7_station_count_and_indexing 0 20000 0 8000 16000 24000 5 3 1 (fun k => 1000 * k) 25
    [0, 1000, 2000, 3000, 4000, 5000, 6000, 7000, 8000, 9000, 10000, 11000, 12000, 13000, 14000, 15000, 16000, 17000, 18000, 19000] (by decide)

set_option maxRecDepth 10000 in
/-- C8: the stations of every challenge built by `new_random_challenge` carry
the constant flags (`desc = "1"`, `skill_type = 0`, the three shot counts `1`,
`obstacle = 0`, `obstacle_dist` encoding 0 meters), the request's three
scores, equal `trgt_dist_` fields and pairwise equal amateur/pro ring
diameters. -/
theorem C8_station_fields (lo hi gap ir mr osr isc msc osc : ℕ)
    (s : ℕ → ℕ) (fuel : ℕ) (ys : List ℕ)
    (h : takeYards lo hi gap s none 0 fuel NUM_STATIONS = some ys) :
    (new_random_challenge lo hi gap ir mr osr isc msc osc s fuel).map FSXChallenge.stations
        = some (buildStations ys ir mr osr isc msc osc)
      ∧ ∀ st ∈ buildStations ys ir mr osr isc msc osc,
          st.desc = "1" ∧ st.skill_type = 0 ∧ st.num_shots_am = 1 ∧ st.num_shots_pro = 1
            ∧ st.num_shots_to_use = 1 ∧ st.obstacle = 0 ∧ st.obstacle_dist = Meters.mk 0
            ∧ st.inner_score = isc ∧ st.mid_score = msc ∧ st.outer_score = osc
            ∧ st.trgt_dist_women = st.trgt_dist_am ∧ st.trgt_dist_pro = st.trgt_dist_am
            ∧ st.inner_ring_diam_am = st.inner_ring_diam_pro
            ∧ st.mid_ring_diam_am = st.mid_ring_diam_pro
            ∧ st.outer_ring_diam_am = st.outer_ring_diam_pro := by
  constructor
  · unfold new_random_challenge
    rw [h]
    rfl
  · intro st hst
    simp only [buildStations, List.mem_map] at hst
    obtain ⟨p, -, rfl⟩ := hst
    simp [mkStation, Yards.new, Yards.to_meters]

/-- C8 witness: the first station of a concrete challenge. -/
theorem C8_station_fields_witness :
    (mkStation 0 0 8000 16000 24000 5 3 1).desc = "1"
      ∧ (mkStation 0 0 8000 16000 24000 5 3 1).skill_type = 0
      ∧ (mkStation 0 0 8000 16000 24000 5 3 1).num_shots_am = 1
      ∧ (mkStation 0 0 8000 16000 24000 5 3 1).num_shots_pro = 1
      ∧ (mkStation 0 0 8000 16000 24000 5 3 1).num_shots_to_use = 1
      ∧ (mkStation 0 0 8000 16000 24000 5 3 1).obstacle = 0
      ∧ (mkStation 0 0 8000 16000 24000 5 3 1).obstacle_dist = Meters.mk 0
      ∧ (mkStation 0 0 8000 16000 24000 5 3 1).inner_score = 5
      ∧ (mkStation 0 0 8000 16000 24000 5 3 1).mid_score = 3
      ∧ (mkStation 0 0 8000 16000 24000 5 3 1).outer_score = 1
      ∧ (mkStation 0 0 8000 16000 24000 5 3 1).trgt_dist_women
          = (mkStation 0 0 8000 16000 24000 5 3 1).trgt_dist_am
      ∧ (mkStation 0 0 8000 16000 24000 5 3 1).trgt_dist_pro
          = (mkStation 0 0 8000 16000 24000 5 3 1).trgt_dist_am
      ∧ (mkStation 0 0 8000 16000 24000 5 3 1).inner_ring_diam_am
          = (mkStation 0 0 8000 16000 24000 5 3 1).inner_ring_diam_pro
      ∧ (mkStation 0 0 8000 16000 24000 5 3 1).mid_ring_diam_am
          = (mkStation 0 0 8000 16000 24000 5 3 1).mid_ring_diam_pro
      ∧ (mkStation 0 0 8000 16000 24000 5 3 1).outer_ring_diam_am
          = (mkStation 0 0 8000 16000 24000 5 3 1).outer_ring_diam_pro :=
  (C8_station_fields 0 20000 0 8000 16000 24000 5 3 1 (fun k => 1000 * k) 25
      [0, 1000, 2000, 3000, 4000, 5000, 6000, 7000, 8000, 9000, 10000, 11000, 12000, 13000, 14000, 15000, 16000, 17000, 18000, 19000] (by decide)).2
    (mkStation 0 0 8000 16000 24000 5 3 1) (by decide)

set_option maxRecDepth 10000 in
/-- C9: the uid derivation is deterministic: two builder runs (different
oracle streams, different fuel) that sample the same yardage sequence produce
challenges with the same name, hence the same embedded uid. -/
theorem C9_uid_deterministic (lo hi gap ir mr osr isc msc osc : ℕ)
    (s1 s2 : ℕ → ℕ) (f1 f2 : ℕ) (ys : List ℕ)
    (h1 : takeYards lo hi gap s1 none 0 f1 NUM_STATIONS = some ys)
    (h2 : takeYards lo hi gap s2 none 0 f2 NUM_STATIONS = some ys) :
    (new_random_challenge lo hi gap ir mr osr isc msc osc s1 f1).map FSXChallenge.name
      = (new_random_challenge lo hi gap ir mr osr isc msc osc s2 f2).map FSXChallenge.name := by
  unfold new_random_challenge
  rw [h1, h2]

/-- C9 witness: two distinct oracle streams that sample the same sequence in
`[0, 20000)` give the same name. -/
theorem C9_uid_deterministic_witness :
    (new_random_challenge 0 20000 0 8000 16000 24000 5 3 1 (fun k => 1000 * k) 25).map
        FSXChallenge.name
      = (new_random_challenge 0 20000 0 8000 16000 24000 5 3 1
          (fun k => 20000 + 1000 * k) 25).map FSXChallenge.name :=
  C9_uid_deterministic 0 20000 0 8000 16000 24000 5 3 1 (fun k => 1000 * k)
    (fun k => 20000 + 1000 * k) 25 25 [0, 1000, 2000, 3000, 4000, 5000, 6000, 7000, 8000, 9000, 10000, 11000, 12000, 13000, 14000, 15000, 16000, 17000, 18000, 19000] (by decide) (by decide)

set_option maxRecDepth 10000 in
/-- C1 counterexample: at bounds `[0, 20000)`, gap `0` and the oracle stream
`k ↦ 1000 k`, the built challenge's uid differs from the truncated hash of
the sampled milli-yard sequence itself — the hasher is fed the lossy
meters-and-back roundtrip of each value, not the sampled value. -/
theorem C1_counterexample :
    ((new_random_challenge 0 20000 0 8000 16000 24000 5 3 1 (fun k => 1000 * k) 25).map
        (fun c => challengeUid c.stations))
      ≠ ((takeYards 0 20000 0 (fun k => 1000 * k) none 0 25 NUM_STATIONS).map uidOfWords) := by
  decide

set_option maxRecDepth 10000 in
/-- C1 (amended): the uid of every challenge built by `new_random_challenge`
is the low 32 bits of the SipHash-1-3 digest of, for each station in emission
order, the milli-yard integer of the sampled yardage converted to meters and
back to yards (`trgt_dist_am.to_yards()`), not of the sampled value itself. -/
theorem C1_uid_hashes_roundtrip (lo hi gap ir mr osr isc msc osc : ℕ)
    (s : ℕ → ℕ) (fuel : ℕ) (ys : List ℕ)
    (h : takeYards lo hi gap s none 0 fuel NUM_STATIONS = some ys) :
    (new_random_challenge lo hi gap ir mr osr isc msc osc s fuel).map
        (fun c => challengeUid c.stations)
      = some (uidOfWords (ys.map hashedYard)) := by
  unfold new_random_challenge
  rw [h]
  show some (challengeUid (buildStations ys ir mr osr isc msc osc))
      = some (uidOfWords (ys.map hashedYard))
  rw [challengeUid_buildStations]

/-- C1 (amended) witness: the concrete challenge at bounds `[0, 20000)`. -/
theorem C1_uid_hashes_roundtrip_witness :
    ((new_random_challenge 0 20000 0 8000 16000 24000 5 3 1 (fun k => 1000 * k) 25).map
        (fun c => challengeUid c.stations))
      = some (uidOfWords (([0, 1000, 2000, 3000, 4000, 5000, 6000, 7000, 8000, 9000, 10000, 11000, 12000, 13000, 14000, 15000, 16000, 17000, 18000, 19000] : List ℕ).map hashedYard)) :=
  C1_uid_hashes_roundtrip 0 20000 0 8000 16000 24000 5 3 1 (fun k => 1000 * k) 25
    [0, 1000, 2000, 3000, 4000, 5000, 6000, 7000, 8000, 9000, 10000, 11000, 12000, 13000, 14000, 15000, 16000, 17000, 18000, 19000] (by decide)

set_option maxRecDepth 10000 in
/-- C4 counterexample: with `min = 0.5` yards (milli-yards `500`), the first
integer group of the built name is `"0"` — Rust's `{:.0}` formatter rounds
ties to even — while the claim's half-up rounding of `0.5` is `1`. -/
theorem C4_counterexample :
    ((new_random_challenge 500 20000 0 8000 16000 24000 5 3 1 (fun k => 1000 * k) 25).map
        (fun c => c.name.data.takeWhile Char.isDigit)) = some ['0']
      ∧ (Nat.repr (specHalfUpRound 500)).data = ['1'] := by
  decide

set_option maxRecDepth 10000 in
/-- C4 (amended): the name of every challenge built by `new_random_challenge`
is `"{min} - {max} {uid}"` where the two integer groups are the bounds in
whole-yard real form rounded to zero fractional digits with ties-to-even (not
half-up), all their characters are decimal digits, and the tail is exactly
eight lowercase hexadecimal digits reproducible by recomputing the truncated
hash over the hashed (roundtripped) yardage sequence. -/
theorem C4_name_format (lo hi gap ir mr osr isc msc osc : ℕ)
    (s : ℕ → ℕ) (fuel : ℕ) (ys : List ℕ)
    (h : takeYards lo hi gap s none 0 fuel NUM_STATIONS = some ys) :
    ((new_random_challenge lo hi gap ir mr osr isc msc osc s fuel).map FSXChallenge.name
        = some (Nat.repr (fmtDot0 lo) ++ " - " ++ Nat.repr (fmtDot0 hi) ++ " "
            ++ hex8 (uidOfWords (ys.map hashedYard))))
      ∧ (∀ ch ∈ (Nat.repr (fmtDot0 lo)).data, ch.isDigit = true)
      ∧ (∀ ch ∈ (Nat.repr (fmtDot0 hi)).data, ch.isDigit = true)
      ∧ (hex8 (uidOfWords (ys.map hashedYard))).length = 8
      ∧ ∀ ch ∈ (hex8 (uidOfWords (ys.map hashedYard))).data, ch ∈ hexChars := by
  refine ⟨?_, reprChar_isDigit _, reprChar_isDigit _, rfl, hex8_mem_hexChars _⟩
  unfold new_random_challenge
  rw [h]
  show some (mkName lo hi (challengeUid (buildStations ys ir mr osr isc msc osc))) = _
  rw [challengeUid_buildStations]
  rfl

/-- C4 (amended) witness: the concrete challenge with `min = 0.5` yards. -/
theorem C4_name_format_witness :
    (new_random_challenge 500 20000 0 8000 16000 24000 5 3 1 (fun k => 1000 * k) 25).map
        FSXChallenge.name
      = some (Nat.repr (fmtDot0 500) ++ " - " ++ Nat.repr (fmtDot0 20000) ++ " "
          ++ hex8 (uidOfWords (([500, 1500, 2500, 3500, 4500, 5500, 6500, 7500, 8500, 9500, 10500, 11500, 12500, 13500, 14500, 15500, 16500, 17500, 18500, 19500] : List ℕ).map hashedYard))) :=
  (C4_name_format 500 20000 0 8000 16000 24000 5 3 1 (fun k => 1000 * k) 25
      [500, 1500, 2500, 3500, 4500, 5500, 6500, 7500, 8500, 9500, 10500, 11500, 12500, 13500, 14500, 15500, 16500, 17500, 18500, 19500] (by decide)).1


end FSX
